import Mathlib

/-!
Verification of the personality core of the furby repository.

The embedding follows the two Python source files:
* `src/personality/brain.py` — the `Emotions` state class, the stress/delay
  computation in `Brain._random_delay`, and the rule-table action selector
  `Brain._action` with its class-level `ACTION_TABLE`.
* `src/personality/__init__.py` — the MicroPython variant, whose `Emotions.decay`
  loop writes only loop-local variables.

Python integers are unbounded, so every emotion value, bound and interaction
code is modelled as `Int`.  Python's arithmetic right shift `x >> n` on an
`int` is an exact floor shift, modelled by `Int`'s `>>>`; `x << 1` is exact
multiplication by 2.  The `random.choice` call is modelled by an explicit
oracle index `pick : Nat` reduced modulo the candidate-list length, and
`random.randint(1, 100)` by an explicit argument `r`.
-/

/-- State of the `Emotions` class of `src/personality/brain.py`: five integer
counters, initialised to 0 by `__init__` and mutated only through `set` and
`decay`. -/
structure Emotions where
  wellness : Int
  fullness : Int
  displeasedness : Int
  tiredness : Int
  excitedness : Int

/-- Construction in `Emotions.__init__`: all five counters start at 0. -/
def Emotions.init : Emotions :=
  ⟨0, 0, 0, 0, 0⟩

/-- Method `Emotions.get`: returns the five values as a tuple, no side effects. -/
def Emotions.get (s : Emotions) : Int × Int × Int × Int × Int :=
  (s.wellness, s.fullness, s.displeasedness, s.tiredness, s.excitedness)

/-- Method `Emotions.set`: replaces all five values with the components of the
argument tuple, unconditionally and without clamping. -/
def Emotions.set (_s : Emotions) (vals : Int × Int × Int × Int × Int) : Emotions :=
  { wellness := vals.1
    fullness := vals.2.1
    displeasedness := vals.2.2.1
    tiredness := vals.2.2.2.1
    excitedness := vals.2.2.2.2 }

/-- Loop body of `Emotions.decay` in `brain.py` for one attribute, with
`decay_rate = 1`: `value = max(0, value - decay_rate)` followed by
`setattr(self, attr, min(100, value))`. -/
def decayStep (value : Int) : Int :=
  min 100 (max 0 (value - 1))

/-- Method `Emotions.decay` in `brain.py`: applies the decay/snap step to each
of the five attributes in turn. -/
def Emotions.decay (s : Emotions) : Emotions :=
  { wellness := decayStep s.wellness
    fullness := decayStep s.fullness
    displeasedness := decayStep s.displeasedness
    tiredness := decayStep s.tiredness
    excitedness := decayStep s.excitedness }

/-- N successive calls of `Emotions.decay`. -/
def Emotions.decayN : Nat → Emotions → Emotions
  | 0, s => s
  | n + 1, s => Emotions.decay (Emotions.decayN n s)

/-- N successive applications of the single-attribute decay step. -/
def decayStepN : Nat → Int → Int
  | 0, v => v
  | n + 1, v => decayStep (decayStepN n v)

/-- A value lies in the byte range [0, 100] used by the original toy's
one-byte-per-emotion encoding. -/
def inRange (v : Int) : Prop :=
  0 ≤ v ∧ v ≤ 100

instance (v : Int) : Decidable (inRange v) :=
  inferInstanceAs (Decidable (0 ≤ v ∧ v ≤ 100))

/-- All five counters of an emotion state lie in [0, 100]. -/
def Emotions.valid (s : Emotions) : Prop :=
  inRange s.wellness ∧ inRange s.fullness ∧ inRange s.displeasedness ∧
    inRange s.tiredness ∧ inRange s.excitedness

instance (s : Emotions) : Decidable s.valid :=
  inferInstanceAs (Decidable (inRange s.wellness ∧ inRange s.fullness ∧
    inRange s.displeasedness ∧ inRange s.tiredness ∧ inRange s.excitedness))

/-- Values of the `Interaction` IntEnum of `brain.py`; `NONE = 0` marks the
idle path and doubles as the "no interaction required" code in rule entries. -/
def Interaction.NONE : Int := 0

/-- Interaction code `SOUND`. -/
def Interaction.SOUND : Int := 1

/-- Interaction code `BACK_SENSOR`. -/
def Interaction.BACK_SENSOR : Int := 2

/-- Interaction code `TAIL_PULL`. -/
def Interaction.TAIL_PULL : Int := 3

/-- Interaction code `UPSIDE_DOWN`. -/
def Interaction.UPSIDE_DOWN : Int := 4

/-- Interaction code `SHAKE`. -/
def Interaction.SHAKE : Int := 5

/-- Raw stress combination in `Brain._random_delay`:
`(unwell << 1) + (hungry << 1) + displeasedness + excitedness - (tiredness << 1)`
with `unwell = 100 - wellness` and `hungry = 100 - fullness`; the `<< 1`
shifts are exact doublings on Python ints. -/
def Brain.stressRaw (s : Emotions) : Int :=
  2 * (100 - s.wellness) + 2 * (100 - s.fullness)
    + s.displeasedness + s.excitedness - 2 * s.tiredness

/-- Clamped stress in `Brain._random_delay`:
`stress = max(0, min(255, stress >> 2))`; the `>> 2` is an arithmetic
(flooring) shift, `Int`'s `>>>`. -/
def Brain.stress (s : Emotions) : Int :=
  max 0 (min 255 (Brain.stressRaw s >>> (2 : Nat)))

/-- Sleep duration in `Brain._random_delay`: `(stress + randint(1, 100)) >> 1`,
with the random draw passed explicitly as `r`. -/
def Brain.delay (stress r : Int) : Int :=
  (stress + r) >>> (1 : Nat)

/-- Stress as the specification section 4.2 words it: the same raw
combination, then `floor(raw / 4)` (mathematical floor division), then a
clamp into [0, 255]. -/
def stressSpec (w f d t e : Int) : Int :=
  max 0 (min 255 (Int.fdiv (2 * (100 - w) + 2 * (100 - f) + d + e - 2 * t) 4))

/-- One `ActionTuple` of the rule table: five per-dimension minima, five
maxima, a required interaction code (0 = none required), and the payload. -/
structure ActionTuple where
  minWellness : Int
  minFullness : Int
  minDispleasedness : Int
  minTiredness : Int
  minExcitedness : Int
  maxWellness : Int
  maxFullness : Int
  maxDispleasedness : Int
  maxTiredness : Int
  maxExcitedness : Int
  interaction : Int
  payload : String
deriving DecidableEq

/-- The bounds test of `Brain._action`:
`all(min_v <= emo <= max_v for min_v, emo, max_v in zip(mins, emotions, maxs))`. -/
def ActionTuple.admits (entry : ActionTuple) (s : Emotions) : Prop :=
  entry.minWellness ≤ s.wellness ∧ s.wellness ≤ entry.maxWellness ∧
  entry.minFullness ≤ s.fullness ∧ s.fullness ≤ entry.maxFullness ∧
  entry.minDispleasedness ≤ s.displeasedness ∧ s.displeasedness ≤ entry.maxDispleasedness ∧
  entry.minTiredness ≤ s.tiredness ∧ s.tiredness ≤ entry.maxTiredness ∧
  entry.minExcitedness ≤ s.excitedness ∧ s.excitedness ≤ entry.maxExcitedness

instance (entry : ActionTuple) (s : Emotions) : Decidable (entry.admits s) :=
  inferInstanceAs (Decidable (_ ∧ _ ∧ _ ∧ _ ∧ _ ∧ _ ∧ _ ∧ _ ∧ _ ∧ _))

/-- Full rule test of `Brain._action`: the bounds test together with
`int_req == 0 or int_req == interaction`. -/
def ActionTuple.matchesState (entry : ActionTuple) (s : Emotions) (interaction : Int) : Bool :=
  decide (entry.admits s ∧ (entry.interaction = 0 ∨ entry.interaction = interaction))

/-- The `runnable` list built by `Brain._action`'s loop: the payloads of the
table entries that pass the rule test, in table order. -/
def Brain.runnable (table : List ActionTuple) (s : Emotions) (interaction : Int) :
    List String :=
  (table.filter fun entry => entry.matchesState s interaction).map ActionTuple.payload

/-- Method `Brain._action`: if `runnable` is non-empty, `random.choice` picks
one element (modelled by the oracle index `pick` reduced modulo the length)
and hands it to the action runner; otherwise the "no runnable actions" outcome,
modelled as `none`. -/
def Brain.action (table : List ActionTuple) (s : Emotions) (interaction : Int)
    (pick : Nat) : Option String :=
  let r := Brain.runnable table s interaction
  if r.isEmpty then none
  else r[pick % r.length]?

/-- The class-level `Brain.ACTION_TABLE`: the single unconditional rule
`(0, 0, 0, 0, 0, 100, 100, 100, 100, 100, 0, "idle action")`. -/
def Brain.ACTION_TABLE : List ActionTuple :=
  [⟨0, 0, 0, 0, 0, 100, 100, 100, 100, 100, 0, "idle action"⟩]

/-- Loop body of `Emotions.decay` in `src/personality/__init__.py` for the
loop-local variable `emotion`, with `decay_rate = 1`:
`if emotion >= decay_rate: emotion -= decay_rate else: emotion = 0`, then
`emotion = 100 if emotion > 100 else emotion`. -/
def Micro.decayLocal (emotion : Int) : Int :=
  let e₁ := if emotion ≥ 1 then emotion - 1 else 0
  if e₁ > 100 then 100 else e₁

/-- Method `Emotions.decay` of `src/personality/__init__.py`: the `for` loop
iterates over a list of the five current field values, rebinding only the
loop-local `emotion`; no attribute of the object is assigned, so the resulting
object state is the input state.  The discarded local computations are kept to
mirror the loop body. -/
def Micro.Emotions.decay (s : Emotions) : Emotions :=
  let _locals := [s.wellness, s.fullness, s.displeasedness, s.tiredness,
    s.excitedness].map Micro.decayLocal
  s

theorem decayStepN_eq (v : Int) (n : Nat) (h0 : 0 ≤ v) (h1 : v ≤ 100) :
    decayStepN n v = max 0 (v - n) := by
  induction n with
  | zero => simp [decayStepN]; omega
  | succ k ih =>
      simp only [decayStepN, ih, decayStep]
      push_cast
      omega

theorem decayN_components (s : Emotions) (n : Nat) :
    Emotions.decayN n s =
      ⟨decayStepN n s.wellness, decayStepN n s.fullness,
       decayStepN n s.displeasedness, decayStepN n s.tiredness,
       decayStepN n s.excitedness⟩ := by
  induction n with
  | zero => rfl
  | succ k ih => simp [Emotions.decayN, Emotions.decay, decayStepN, ih]

theorem stress_eq_ediv (s : Emotions) :
    Brain.stress s = max 0 (min 255 (Brain.stressRaw s / 4)) := by
  have h := Int.shiftRight_eq_div_pow (Brain.stressRaw s) 2
  norm_num at h
  rw [Brain.stress, h]

theorem delay_eq_ediv (a r : Int) : Brain.delay a r = (a + r) / 2 := by
  have h := Int.shiftRight_eq_div_pow (a + r) 1
  norm_num at h
  rw [Brain.delay, h]

theorem mem_runnable_iff (table : List ActionTuple) (s : Emotions)
    (interaction : Int) (p : String) :
    p ∈ Brain.runnable table s interaction ↔
      ∃ entry ∈ table, entry.matchesState s interaction = true ∧
        entry.payload = p := by
  simp only [Brain.runnable, List.mem_map, List.mem_filter]
  constructor
  · rintro ⟨entry, ⟨hmem, hmatch⟩, hpay⟩
    exact ⟨entry, hmem, hmatch, hpay⟩
  · rintro ⟨entry, hmem, hmatch, hpay⟩
    exact ⟨entry, ⟨hmem, hmatch⟩, hpay⟩

/-- C1: for emotion states with all five dimensions in [0, 100], one call of
`Emotions.decay` (brain.py) sets each dimension to `max 0 (old - 1)`; after
N calls each dimension equals `max 0 (initial - N)`, and every dimension
stays inside [0, 100]. -/
theorem decay_exact (s : Emotions) (n : Nat) (h : s.valid) :
    ((Emotions.decay s).wellness = max 0 (s.wellness - 1) ∧
     (Emotions.decay s).fullness = max 0 (s.fullness - 1) ∧
     (Emotions.decay s).displeasedness = max 0 (s.displeasedness - 1) ∧
     (Emotions.decay s).tiredness = max 0 (s.tiredness - 1) ∧
     (Emotions.decay s).excitedness = max 0 (s.excitedness - 1)) ∧
    ((Emotions.decayN n s).wellness = max 0 (s.wellness - n) ∧
     (Emotions.decayN n s).fullness = max 0 (s.fullness - n) ∧
     (Emotions.decayN n s).displeasedness = max 0 (s.displeasedness - n) ∧
     (Emotions.decayN n s).tiredness = max 0 (s.tiredness - n) ∧
     (Emotions.decayN n s).excitedness = max 0 (s.excitedness - n)) ∧
    (Emotions.decayN n s).valid := by
  obtain ⟨⟨hw0, hw1⟩, ⟨hf0, hf1⟩, ⟨hd0, hd1⟩, ⟨ht0, ht1⟩, ⟨he0, he1⟩⟩ := h
  refine ⟨?_, ?_, ?_⟩
  · simp only [Emotions.decay, decayStep]
    omega
  · rw [decayN_components]
    exact ⟨decayStepN_eq s.wellness n hw0 hw1, decayStepN_eq s.fullness n hf0 hf1,
      decayStepN_eq s.displeasedness n hd0 hd1, decayStepN_eq s.tiredness n ht0 ht1,
      decayStepN_eq s.excitedness n he0 he1⟩
  · rw [decayN_components]
    simp only [Emotions.valid, inRange, decayStepN_eq s.wellness n hw0 hw1,
      decayStepN_eq s.fullness n hf0 hf1, decayStepN_eq s.displeasedness n hd0 hd1,
      decayStepN_eq s.tiredness n ht0 ht1, decayStepN_eq s.excitedness n he0 he1]
    omega

/-- Witness for `decay_exact` at the state (5, 0, 100, 50, 1) with N = 7. -/
theorem decay_exact_witness : (Emotions.decayN 7 ⟨5, 0, 100, 50, 1⟩).valid :=
  (decay_exact ⟨5, 0, 100, 50, 1⟩ 7 (by decide)).2.2

/-- C2: for every emotion snapshot, the stress computed by
`Brain._random_delay` equals the clamp into [0, 255] of the floor of the raw
combination divided by 4, as the specification words it. -/
theorem stress_matches_spec (w f d t e : Int) :
    Brain.stress ⟨w, f, d, t, e⟩ = stressSpec w f d t e := by
  rw [stress_eq_ediv]
  unfold stressSpec Brain.stressRaw
  rw [Int.fdiv_eq_ediv _ (by norm_num)]

/-- C8: `Emotions.set` followed by `Emotions.get` returns exactly the tuple
that was supplied, with no clamping, for arbitrary integer components. -/
theorem set_get_roundtrip (s : Emotions) (v : Int × Int × Int × Int × Int) :
    (Emotions.set s v).get = v := rfl

/-- C10: `Emotions.decay` of src/personality/__init__.py leaves the object
state unchanged: the loop only rebinds its local variable. -/
theorem micro_decay_noop (s : Emotions) : Micro.Emotions.decay s = s := rfl

/-- C5 counterexample: `Emotions.set` copies its argument unclamped, so the
claimed invariant fails: setting (200, 0, 0, 0, 0) leaves wellness at 200,
outside [0, 100]. -/
theorem set_violates_range :
    ¬ (Emotions.set ⟨0, 0, 0, 0, 0⟩ (200, 0, 0, 0, 0)).valid := by decide

/-- C5 amended: after `Emotions.decay` every counter is in [0, 100] for every
starting state; after `Emotions.set` the counters are in [0, 100] when the
supplied tuple is componentwise in [0, 100] (set copies without clamping). -/
theorem range_after_ops (s : Emotions) (v : Int × Int × Int × Int × Int) :
    (Emotions.decay s).valid ∧
    ((inRange v.1 ∧ inRange v.2.1 ∧ inRange v.2.2.1 ∧ inRange v.2.2.2.1 ∧
        inRange v.2.2.2.2) → (Emotions.set s v).valid) := by
  constructor
  · simp only [Emotions.decay, Emotions.valid, inRange, decayStep]
    omega
  · intro hv
    obtain ⟨⟨h10, h11⟩, ⟨h20, h21⟩, ⟨h30, h31⟩, ⟨h40, h41⟩, ⟨h50, h51⟩⟩ := hv
    simp only [Emotions.set, Emotions.valid, inRange]
    omega

/-- Witness for `range_after_ops` at an out-of-range starting state and the
in-range tuple (1, 2, 3, 4, 5). -/
theorem range_after_ops_witness :
    (Emotions.decay ⟨-3, 250, 0, 0, 0⟩).valid ∧
    (Emotions.set ⟨-3, 250, 0, 0, 0⟩ (1, 2, 3, 4, 5)).valid :=
  ⟨(range_after_ops ⟨-3, 250, 0, 0, 0⟩ (1, 2, 3, 4, 5)).1,
   (range_after_ops ⟨-3, 250, 0, 0, 0⟩ (1, 2, 3, 4, 5)).2 (by decide)⟩

/-- C6: over snapshots in [0, 100]^5 changing one dimension, `Brain.stress` is
monotone non-decreasing in excitedness and displeasedness and monotone
non-increasing in tiredness, wellness and fullness. -/
theorem stress_monotone :
    (∀ (s : Emotions) (e' : Int), s.valid → 0 ≤ e' → e' ≤ 100 →
      s.excitedness ≤ e' →
      Brain.stress s ≤ Brain.stress { s with excitedness := e' }) ∧
    (∀ (s : Emotions) (d' : Int), s.valid → 0 ≤ d' → d' ≤ 100 →
      s.displeasedness ≤ d' →
      Brain.stress s ≤ Brain.stress { s with displeasedness := d' }) ∧
    (∀ (s : Emotions) (t' : Int), s.valid → 0 ≤ t' → t' ≤ 100 →
      s.tiredness ≤ t' →
      Brain.stress { s with tiredness := t' } ≤ Brain.stress s) ∧
    (∀ (s : Emotions) (w' : Int), s.valid → 0 ≤ w' → w' ≤ 100 →
      s.wellness ≤ w' →
      Brain.stress { s with wellness := w' } ≤ Brain.stress s) ∧
    (∀ (s : Emotions) (f' : Int), s.valid → 0 ≤ f' → f' ≤ 100 →
      s.fullness ≤ f' →
      Brain.stress { s with fullness := f' } ≤ Brain.stress s) := by
  refine ⟨?_, ?_, ?_, ?_, ?_⟩ <;>
  · intro s x _hval h0 h1 hle
    simp only [stress_eq_ediv, Brain.stressRaw]
    omega

/-- Witness for `stress_monotone`: raising excitedness from 10 to 20 at an
otherwise zero state does not decrease the stress. -/
theorem stress_monotone_witness :
    Brain.stress ⟨0, 0, 0, 0, 10⟩ ≤
      Brain.stress { (⟨0, 0, 0, 0, 10⟩ : Emotions) with excitedness := 20 } :=
  stress_monotone.1 ⟨0, 0, 0, 0, 10⟩ 20 (by decide) (by decide) (by decide)
    (by decide)

/-- C7: the idle-path delay is the floor of (stress + r) / 2, and for stress
in [0, 255] and random draw r in [1, 100] it lies in [0, 177]. -/
theorem delay_floor_and_bounds (stress r : Int) (h0 : 0 ≤ stress)
    (h1 : stress ≤ 255) (h2 : 1 ≤ r) (h3 : r ≤ 100) :
    Brain.delay stress r = Int.fdiv (stress + r) 2 ∧
    0 ≤ Brain.delay stress r ∧ Brain.delay stress r ≤ 177 := by
  rw [delay_eq_ediv, Int.fdiv_eq_ediv _ (by norm_num)]
  omega

/-- Witness for `delay_floor_and_bounds` at the extreme stress 255 and draw
100, where the delay reaches 177. -/
theorem delay_floor_and_bounds_witness :
    Brain.delay 255 100 = Int.fdiv (255 + 100) 2 ∧
    0 ≤ Brain.delay 255 100 ∧ Brain.delay 255 100 ≤ 177 :=
  delay_floor_and_bounds 255 100 (by decide) (by decide) (by decide) (by decide)

/-- C3: whenever `Brain._action` selects a payload, that payload comes from a
table entry whose five bound pairs admit the current emotion snapshot and
whose required interaction is 0 or equals the supplied interaction. -/
theorem action_sound (table : List ActionTuple) (s : Emotions) (interaction : Int)
    (pick : Nat) (p : String)
    (h : Brain.action table s interaction pick = some p) :
    ∃ entry ∈ table, entry.payload = p ∧ entry.admits s ∧
      (entry.interaction = 0 ∨ entry.interaction = interaction) := by
  unfold Brain.action at h
  by_cases hemp : (Brain.runnable table s interaction).isEmpty
  · simp [hemp] at h
  · simp only [hemp, Bool.false_eq_true, if_false] at h
    have hp : p ∈ Brain.runnable table s interaction := List.getElem?_mem h
    rw [mem_runnable_iff] at hp
    obtain ⟨entry, hmem, hmatch, hpay⟩ := hp
    rw [ActionTuple.matchesState, decide_eq_true_iff] at hmatch
    exact ⟨entry, hmem, hpay, hmatch.1, hmatch.2⟩

/-- Witness for `action_sound` on the default table at the zero snapshot. -/
theorem action_sound_witness :
    ∃ entry ∈ Brain.ACTION_TABLE, entry.payload = "idle action" ∧
      entry.admits ⟨0, 0, 0, 0, 0⟩ ∧
      (entry.interaction = 0 ∨ entry.interaction = 0) :=
  action_sound Brain.ACTION_TABLE ⟨0, 0, 0, 0, 0⟩ 0 0 "idle action" (by decide)

/-- C4: if some table entry matches the snapshot and interaction then
`Brain._action` returns a payload, and if no entry matches it returns the
"no runnable action" outcome `none`. -/
theorem action_complete (table : List ActionTuple) (s : Emotions)
    (interaction : Int) (pick : Nat) :
    ((∃ entry ∈ table, entry.admits s ∧
        (entry.interaction = 0 ∨ entry.interaction = interaction)) →
      ∃ p, Brain.action table s interaction pick = some p) ∧
    ((¬ ∃ entry ∈ table, entry.admits s ∧
        (entry.interaction = 0 ∨ entry.interaction = interaction)) →
      Brain.action table s interaction pick = none) := by
  constructor
  · rintro ⟨entry, hmem, hadm, hint⟩
    have hp : entry.payload ∈ Brain.runnable table s interaction := by
      rw [mem_runnable_iff]
      refine ⟨entry, hmem, ?_, rfl⟩
      rw [ActionTuple.matchesState, decide_eq_true_iff]
      exact ⟨hadm, hint⟩
    have hne : (Brain.runnable table s interaction).isEmpty = false :=
      List.isEmpty_eq_false.2 (List.ne_nil_of_mem hp)
    have hlen : 0 < (Brain.runnable table s interaction).length :=
      List.length_pos.2 (List.ne_nil_of_mem hp)
    have hlt : pick % (Brain.runnable table s interaction).length <
        (Brain.runnable table s interaction).length := Nat.mod_lt _ hlen
    refine ⟨(Brain.runnable table s
      interaction)[pick % (Brain.runnable table s interaction).length], ?_⟩
    simp [Brain.action, hne, List.getElem?_eq_getElem hlt]
  · intro hnone
    have hnil : Brain.runnable table s interaction = [] := by
      cases hr : Brain.runnable table s interaction with
      | nil => rfl
      | cons q qs =>
          exfalso
          have hq : q ∈ Brain.runnable table s interaction := by
            rw [hr]; exact List.mem_cons_self q qs
          rw [mem_runnable_iff] at hq
          obtain ⟨entry, hmem, hmatch, _⟩ := hq
          rw [ActionTuple.matchesState, decide_eq_true_iff] at hmatch
          exact hnone ⟨entry, hmem, hmatch.1, hmatch.2⟩
    simp [Brain.action, hnil]

/-- Witness for `action_complete`: the default table yields a payload at the
zero snapshot, and the empty table yields the no-action outcome. -/
theorem action_complete_witness :
    (∃ p, Brain.action Brain.ACTION_TABLE ⟨0, 0, 0, 0, 0⟩ 0 0 = some p) ∧
    Brain.action [] ⟨0, 0, 0, 0, 0⟩ 0 0 = none :=
  ⟨(action_complete Brain.ACTION_TABLE ⟨0, 0, 0, 0, 0⟩ 0 0).1
      ⟨⟨0, 0, 0, 0, 0, 100, 100, 100, 100, 100, 0, "idle action"⟩,
        by decide, by decide, by decide⟩,
   (action_complete [] ⟨0, 0, 0, 0, 0⟩ 0 0).2 (by decide)⟩

/-- C9: with the default `ACTION_TABLE` (one unconditional rule with bounds
0..100 on each dimension and interaction requirement 0), selection returns
the payload "idle action" for every snapshot in [0, 100]^5, every interaction
and every random pick. -/
theorem default_table_selects_idle (s : Emotions) (interaction : Int) (pick : Nat)
    (h : s.valid) :
    Brain.action Brain.ACTION_TABLE s interaction pick = some "idle action" := by
  obtain ⟨⟨hw0, hw1⟩, ⟨hf0, hf1⟩, ⟨hd0, hd1⟩, ⟨ht0, ht1⟩, ⟨he0, he1⟩⟩ := h
  have hmatch : (⟨0, 0, 0, 0, 0, 100, 100, 100, 100, 100, 0, "idle action"⟩ :
      ActionTuple).matchesState s interaction = true := by
    rw [ActionTuple.matchesState, decide_eq_true_iff]
    exact ⟨⟨hw0, hw1, hf0, hf1, hd0, hd1, ht0, ht1, he0, he1⟩, Or.inl rfl⟩
  have hrun : Brain.runnable Brain.ACTION_TABLE s interaction = ["idle action"] := by
    rw [Brain.runnable, Brain.ACTION_TABLE, List.filter, hmatch]
    rfl
  simp [Brain.action, hrun, Nat.mod_one]

/-- Witness for `default_table_selects_idle` at the snapshot (1, 2, 3, 4, 5)
with interaction SHAKE and pick 9. -/
theorem default_table_selects_idle_witness :
    Brain.action Brain.ACTION_TABLE ⟨1, 2, 3, 4, 5⟩ 5 9 = some "idle action" :=
  default_table_selects_idle ⟨1, 2, 3, 4, 5⟩ 5 9 (by decide)
